import Mathlib

/-!
Shallow embedding of the MOCKPRO interview scoring and analytics core
(`src/server/controllers/interviewController.ts` and
`src/server/controllers/analyticsController.ts`), together with theorems
checking the natural-language specification of the repository against it.
Strings are Lean strings, JavaScript numbers are rationals, database rows are
records, and the persistent store is explicit state threaded through the
operations.
-/

namespace MockPro

/-- Embedding of `String.prototype.toLowerCase` on one character, restricted
to the basic latin range the repository compares: code points 65–90 are ASCII
`A`–`Z` and are mapped 32 code points up to `a`–`z`; every other character is
returned unchanged. -/
def jsLowerChar (c : Char) : Char :=
  if h : 65 ≤ c.toNat ∧ c.toNat ≤ 90 then
    Char.ofNatAux (c.toNat + 32) (Or.inl (by omega))
  else c

/-- Embedding of `String.prototype.toLowerCase`, lower-casing every character. -/
def jsToLower (s : String) : String :=
  String.mk (s.toList.map jsLowerChar)

/-- Splitting a character list at every space, the way JavaScript
`String.prototype.split(' ')` does: adjacent, leading or trailing separators
produce empty pieces, and the empty string yields one empty piece. -/
def splitSpaceAux : List Char → List Char → List (List Char)
  | [], acc => [acc.reverse]
  | c :: cs, acc =>
    if c = ' ' then acc.reverse :: splitSpaceAux cs []
    else splitSpaceAux cs (c :: acc)

/-- Embedding of `text.split(' ')` on a string. -/
def jsSplitSpace (s : String) : List String :=
  (splitSpaceAux s.toList []).map String.mk

/-- Embedding of `calculateTextSimilarity` from
`src/server/controllers/interviewController.ts` (lines 401–410): split both
texts on the space character, keep the words longer than two characters, count
the user-side words that also occur among the expected-side words — the
source's `words1.filter(word => words2.includes(word))`, which keeps
duplicates on the user side — and divide by the number of distinct words
overall, the source's `[...new Set([...words1, ...words2])].length`. -/
def calculateTextSimilarity (text1 text2 : String) : ℚ :=
  let words1 := (jsSplitSpace text1).filter (fun w => 2 < w.length)
  let words2 := (jsSplitSpace text2).filter (fun w => 2 < w.length)
  let intersection := words1.filter (fun word => decide (word ∈ words2))
  let union := (words1 ++ words2).dedup
  if 0 < union.length then (intersection.length : ℚ) / (union.length : ℚ) else 0

/-- The scoring block of `submitAnswer` (interviewController lines 207–216):
`score` and `isCorrect` stay `0` and `false` unless both the question's
expected answer and the user answer are present and non-empty (JavaScript
truthiness of `question[0].expectedAnswer && userAnswer`); otherwise both
strings are lower-cased and handed to `calculateTextSimilarity`, the score is
`similarity * 100` and `isCorrect` is `similarity > 0.6`. -/
def submitScore (userAnswer expectedAnswer : Option String) : ℚ × Bool :=
  match expectedAnswer, userAnswer with
  | some e, some u =>
    if e ≠ "" ∧ u ≠ "" then
      let similarity := calculateTextSimilarity (jsToLower u) (jsToLower e)
      (similarity * 100, decide ((0.6 : ℚ) < similarity))
    else (0, false)
  | _, _ => (0, false)

/-- The two integer counts `calculateTextSimilarity` divides: the length of
the source's `intersection` array and the length of its deduplicated `union`
array. Isolated so concrete runs can be evaluated over the integers. -/
def simCounts (text1 text2 : String) : ℕ × ℕ :=
  let words1 := (jsSplitSpace text1).filter (fun w => 2 < w.length)
  let words2 := (jsSplitSpace text2).filter (fun w => 2 < w.length)
  ((words1.filter (fun word => decide (word ∈ words2))).length,
    (words1 ++ words2).dedup.length)

theorem calculateTextSimilarity_eq_simCounts (text1 text2 : String) :
    calculateTextSimilarity text1 text2 =
      if 0 < (simCounts text1 text2).2 then
        ((simCounts text1 text2).1 : ℚ) / ((simCounts text1 text2).2 : ℚ)
      else 0 := rfl

theorem calculateTextSimilarity_dup_pair : calculateTextSimilarity "foo foo" "foo" = 2 := by
  rw [calculateTextSimilarity_eq_simCounts, show simCounts "foo foo" "foo" = (2, 1) from by decide]
  norm_num

theorem calculateTextSimilarity_spec_case :
    calculateTextSimilarity "binary search tree rotation" "binary tree rotation operation" =
      3 / 5 := by
  rw [calculateTextSimilarity_eq_simCounts,
    show simCounts "binary search tree rotation" "binary tree rotation operation" = (3, 5) from by decide]
  norm_num

theorem submitScore_some_some (u e : String) (hu : u ≠ "") (he : e ≠ "") :
    submitScore (some u) (some e) =
      (calculateTextSimilarity (jsToLower u) (jsToLower e) * 100,
        decide ((0.6 : ℚ) < calculateTextSimilarity (jsToLower u) (jsToLower e))) := by
  simp [submitScore, hu, he]

/-- Splitting a character list at every whitespace character; used only by the
specification-side scorer below, whose wording says tokens come from splitting
on whitespace. -/
def splitWsAux : List Char → List Char → List (List Char)
  | [], acc => [acc.reverse]
  | c :: cs, acc =>
    if c.isWhitespace then acc.reverse :: splitWsAux cs [] else splitWsAux cs (c :: acc)

/-- Modelled from the claim wording for the scorer: lower-case the string,
split on whitespace, discard tokens of length at most two, and collapse the
remaining tokens into a set. -/
def specTokenSet (s : String) : Finset String :=
  (((splitWsAux (jsToLower s).toList []).map String.mk).filter
    (fun w => 2 < w.length)).toFinset

/-- Modelled from the claim wording for the scorer: absent inputs give score
`0` and `isCorrect = false`; otherwise the score is
`|A ∩ B| / |A ∪ B| * 100` over the token sets (`0` when the union is empty)
and `isCorrect` is `similarity > 0.6`. -/
def specScore (userAnswer expectedAnswer : Option String) : ℚ × Bool :=
  match userAnswer, expectedAnswer with
  | some u, some e =>
    let A := specTokenSet u
    let B := specTokenSet e
    let similarity : ℚ :=
      if (A ∪ B).card = 0 then 0 else ((A ∩ B).card : ℚ) / ((A ∪ B).card : ℚ)
    (similarity * 100, decide ((0.6 : ℚ) < similarity))
  | _, _ => (0, false)

/-- The two set cardinalities of the specification-side scorer, for concrete
evaluation. -/
def specCounts (u e : String) : ℕ × ℕ :=
  ((specTokenSet u ∩ specTokenSet e).card, (specTokenSet u ∪ specTokenSet e).card)

theorem specScore_eq_specCounts (u e : String) :
    specScore (some u) (some e) =
      (let similarity : ℚ :=
        if (specCounts u e).2 = 0 then 0
        else ((specCounts u e).1 : ℚ) / ((specCounts u e).2 : ℚ)
       (similarity * 100, decide ((0.6 : ℚ) < similarity))) := rfl

/-- C1: the claim describes the scorer with token-set semantics on both
sides. The code keeps duplicates on the user side of the intersection
(`words1.filter(word => words2.includes(word))`), so at
userAnswer `"foo foo"`, expectedAnswer `"foo"` the code returns score `200`
while the claimed set semantics give `100`: the claim is false. -/
theorem c1_scorer_set_semantics_counterexample :
    submitScore (some "foo foo") (some "foo") = (200, true) ∧
    specScore (some "foo foo") (some "foo") = (100, true) ∧
    submitScore (some "foo foo") (some "foo") ≠ specScore (some "foo foo") (some "foo") := by
  have hcode : submitScore (some "foo foo") (some "foo") = (200, true) := by
    rw [submitScore_some_some _ _ (by decide) (by decide),
      calculateTextSimilarity_eq_simCounts,
      show simCounts (jsToLower "foo foo") (jsToLower "foo") = (2, 1) from by decide]
    norm_num
  have hspec : specScore (some "foo foo") (some "foo") = (100, true) := by
    rw [specScore_eq_specCounts,
      show specCounts "foo foo" "foo" = (1, 1) from by decide]
    norm_num
  refine ⟨hcode, hspec, ?_⟩
  rw [hcode, hspec]
  intro h
  exact absurd (congrArg Prod.fst h) (by norm_num)

/-- Modelled from the amended claim: as C1, except that tokens come from
splitting on the space character, and the intersection count keeps user-side
multiplicity — it counts every occurrence of a user token that belongs to the
expected token set, while the union stays a set. The score can therefore
exceed 100. -/
def specScoreAmended (userAnswer expectedAnswer : Option String) : ℚ × Bool :=
  match userAnswer, expectedAnswer with
  | some u, some e =>
    let userTokens := (jsSplitSpace (jsToLower u)).filter (fun w => 2 < w.length)
    let A := userTokens.toFinset
    let B := ((jsSplitSpace (jsToLower e)).filter (fun w => 2 < w.length)).toFinset
    let inter := (userTokens.filter (fun w => decide (w ∈ B))).length
    let uni := (A ∪ B).card
    let similarity : ℚ := if uni = 0 then 0 else (inter : ℚ) / (uni : ℚ)
    (similarity * 100, decide ((0.6 : ℚ) < similarity))
  | _, _ => (0, false)

theorem calculateTextSimilarity_eq_amended (t1 t2 : String) :
    calculateTextSimilarity t1 t2 =
      (let words1 := (jsSplitSpace t1).filter (fun w => 2 < w.length)
       let words2 := (jsSplitSpace t2).filter (fun w => 2 < w.length)
       let inter := (words1.filter (fun w => decide (w ∈ words2.toFinset))).length
       let uni := (words1.toFinset ∪ words2.toFinset).card
       if uni = 0 then 0 else (inter : ℚ) / (uni : ℚ)) := by
  simp only [calculateTextSimilarity]
  have hfilter :
      ((jsSplitSpace t1).filter (fun w => 2 < w.length)).filter
          (fun word => decide (word ∈ (jsSplitSpace t2).filter (fun w => 2 < w.length))) =
        ((jsSplitSpace t1).filter (fun w => 2 < w.length)).filter
          (fun word => decide (word ∈ ((jsSplitSpace t2).filter (fun w => 2 < w.length)).toFinset)) := by
    refine List.filter_congr (fun a _ => ?_)
    simp [List.mem_toFinset]
  have huni :
      (((jsSplitSpace t1).filter (fun w => 2 < w.length)) ++
          ((jsSplitSpace t2).filter (fun w => 2 < w.length))).dedup.length =
        (((jsSplitSpace t1).filter (fun w => 2 < w.length)).toFinset ∪
          ((jsSplitSpace t2).filter (fun w => 2 < w.length)).toFinset).card := by
    rw [← List.toFinset_append, List.card_toFinset]
  rw [hfilter, huni]
  by_cases hz :
      (((jsSplitSpace t1).filter (fun w => 2 < w.length)).toFinset ∪
        ((jsSplitSpace t2).filter (fun w => 2 < w.length)).toFinset).card = 0
  · rw [if_neg (show ¬ 0 < _ from by omega), if_pos hz]
  · rw [if_pos (Nat.pos_of_ne_zero hz), if_neg hz]

/-- C1 (amended): the scorer used by `submitAnswer` returns score `0` and
`isCorrect = false` when either input is absent; otherwise it lower-cases both
strings, splits them on the space character, discards tokens of length at most
two, and returns `score = I / |A ∪ B| * 100` where `A` and `B` are the user
and expected token sets and `I` counts the user tokens, with multiplicity,
that belong to `B` (`0` when the union is empty), with
`isCorrect = (similarity > 0.6)`. -/
theorem specScoreAmended_user_empty (e : String) :
    specScoreAmended (some "") (some e) = (0, false) := by
  simp only [specScoreAmended]
  rw [show ((jsSplitSpace (jsToLower "")).filter fun w => 2 < w.length) = ([] : List String)
    from by decide]
  simp only [List.filter_nil, List.toFinset_nil, List.length_nil, Nat.cast_zero, zero_div,
    ite_self, zero_mul]
  rw [decide_eq_false (by norm_num : ¬ ((0.6 : ℚ) < 0))]

theorem specScoreAmended_expected_empty (u : String) :
    specScoreAmended (some u) (some "") = (0, false) := by
  simp only [specScoreAmended]
  rw [show ((jsSplitSpace (jsToLower "")).filter fun w => 2 < w.length) = ([] : List String)
    from by decide]
  have hfalse : (fun w : String => decide (w ∈ ([] : List String).toFinset)) = fun _ => false := by
    funext w
    exact decide_eq_false (by simp)
  rw [hfalse]
  simp only [List.filter_false, List.length_nil, Nat.cast_zero, zero_div, ite_self, zero_mul]
  rw [decide_eq_false (by norm_num : ¬ ((0.6 : ℚ) < 0))]

/-- C1 (amended): the Answer Scorer used by `submitAnswer` returns score `0`
and `isCorrect = false` when either input is absent (or empty); otherwise it
lower-cases both strings, splits them on the space character, discards tokens
of length at most two, and returns `score = I / |A ∪ B| * 100` where `A` and
`B` are the user and expected token sets and `I` counts the user tokens, with
multiplicity, that belong to `B` (`0` when the union is empty), with
`isCorrect = (similarity > 0.6)`. -/
theorem c1_scorer_amended (userAnswer expectedAnswer : Option String) :
    submitScore userAnswer expectedAnswer = specScoreAmended userAnswer expectedAnswer := by
  match userAnswer, expectedAnswer with
  | none, none => rfl
  | none, some e => rfl
  | some u, none => rfl
  | some u, some e =>
    by_cases hc : e ≠ "" ∧ u ≠ ""
    · simp only [submitScore, specScoreAmended]
      rw [if_pos hc, calculateTextSimilarity_eq_amended (jsToLower u) (jsToLower e)]
    · rcases not_and_or.mp hc with he | hu
      · have he' : e = "" := not_not.mp he
        subst he'
        simp only [submitScore]
        rw [if_neg (by simp), specScoreAmended_expected_empty]
      · have hu' : u = "" := not_not.mp hu
        subst hu'
        simp only [submitScore]
        rw [if_neg (by simp), specScoreAmended_user_empty]

theorem toNat_jsLowerChar_of_upper {c : Char} (h : 65 ≤ c.toNat ∧ c.toNat ≤ 90) :
    (jsLowerChar c).toNat = c.toNat + 32 := by
  rw [jsLowerChar, dif_pos h]
  rfl

theorem jsLowerChar_eq_space_iff (c : Char) : jsLowerChar c = ' ' ↔ c = ' ' := by
  constructor
  · intro h
    by_cases hc : 65 ≤ c.toNat ∧ c.toNat ≤ 90
    · have ht : (jsLowerChar c).toNat = c.toNat + 32 := toNat_jsLowerChar_of_upper hc
      rw [h, show (' ' : Char).toNat = 32 from rfl] at ht
      omega
    · rwa [jsLowerChar, dif_neg hc] at h
  · intro h
    subst h
    rfl

theorem splitSpaceAux_map_lower (l acc : List Char) :
    splitSpaceAux (l.map jsLowerChar) (acc.map jsLowerChar) =
      (splitSpaceAux l acc).map (List.map jsLowerChar) := by
  induction l generalizing acc with
  | nil => simp [splitSpaceAux]
  | cons c cs ih =>
    simp only [List.map_cons, splitSpaceAux]
    by_cases hc : c = ' '
    · rw [if_pos ((jsLowerChar_eq_space_iff c).mpr hc), if_pos hc]
      have ih' := ih []
      simp only [List.map_nil] at ih'
      rw [ih', List.map_cons, List.map_reverse]
    · have hc' : jsLowerChar c ≠ ' ' := fun h => hc ((jsLowerChar_eq_space_iff c).1 h)
      rw [if_neg hc', if_neg hc]
      have ih' := ih (c :: acc)
      simp only [List.map_cons] at ih'
      exact ih'

theorem jsSplitSpace_toLower (s : String) :
    jsSplitSpace (jsToLower s) = (jsSplitSpace s).map jsToLower := by
  have h := splitSpaceAux_map_lower s.toList []
  simp only [List.map_nil] at h
  show (splitSpaceAux (s.toList.map jsLowerChar) []).map String.mk =
    ((splitSpaceAux s.toList []).map String.mk).map jsToLower
  rw [h, List.map_map, List.map_map]
  exact List.map_congr_left fun a _ => rfl

theorem splitSpaceAux_ne_nil (l acc : List Char) : splitSpaceAux l acc ≠ [] := by
  induction l generalizing acc with
  | nil => simp [splitSpaceAux]
  | cons c cs ih =>
    simp only [splitSpaceAux]
    split
    · simp
    · exact ih _

theorem splitSpaceAux_singleton (l : List Char) :
    ∀ acc m, splitSpaceAux l acc = [m] → m = acc.reverse ++ l := by
  induction l with
  | nil =>
    intro acc m h
    simp only [splitSpaceAux, List.cons.injEq, and_true] at h
    simp [h]
  | cons c cs ih =>
    intro acc m h
    simp only [splitSpaceAux] at h
    by_cases hc : c = ' '
    · rw [if_pos hc] at h
      have := (List.cons.inj h).2
      exact absurd this (splitSpaceAux_ne_nil _ _)
    · rw [if_neg hc] at h
      have := ih (c :: acc) m h
      simpa using this

theorem jsSplitSpace_eq_singleton_empty {s : String} (h : jsSplitSpace s = [""]) : s = "" := by
  unfold jsSplitSpace at h
  match hA : splitSpaceAux s.toList [] with
  | [] => exact absurd hA (splitSpaceAux_ne_nil _ _)
  | a :: t =>
    rw [hA] at h
    simp only [List.map_cons, List.cons.injEq] at h
    have ht : t = [] := List.map_eq_nil_iff.mp h.2
    have ha : a = [] := by
      have := congrArg String.toList h.1
      simpa using this
    subst ht
    subst ha
    have hl : ([] : List Char) = ([] : List Char).reverse ++ s.toList :=
      splitSpaceAux_singleton s.toList [] [] hA
    have hs : s.toList = [] := by simpa using hl.symm
    have hmk : s = String.mk s.toList := rfl
    rw [hmk, hs]

/-- The body of `calculateTextSimilarity` on already-split word lists; the
function is definitionally this body applied to the filtered splits. -/
def similarityOfWords (words1 words2 : List String) : ℚ :=
  let intersection := words1.filter (fun word => decide (word ∈ words2))
  let union := (words1 ++ words2).dedup
  if 0 < union.length then (intersection.length : ℚ) / (union.length : ℚ) else 0

theorem calculateTextSimilarity_eq_similarityOfWords (t1 t2 : String) :
    calculateTextSimilarity t1 t2 =
      similarityOfWords ((jsSplitSpace t1).filter (fun w => 2 < w.length))
        ((jsSplitSpace t2).filter (fun w => 2 < w.length)) := rfl

theorem similarityOfWords_congr (w1 w1' w2 w2' : List String)
    (hp : w1.Perm w1') (hm : ∀ w, w ∈ w2 ↔ w ∈ w2') :
    similarityOfWords w1 w2 = similarityOfWords w1' w2' := by
  have hinter : (w1.filter (fun word => decide (word ∈ w2))).length =
      (w1'.filter (fun word => decide (word ∈ w2'))).length := by
    have e1 : w1.filter (fun word => decide (word ∈ w2)) =
        w1.filter (fun word => decide (word ∈ w2')) :=
      List.filter_congr (fun a _ => decide_eq_decide.mpr (hm a))
    rw [e1]
    exact (hp.filter _).length_eq
  have huni : (w1 ++ w2).dedup.length = (w1' ++ w2').dedup.length := by
    have hset : (w1 ++ w2).toFinset = (w1' ++ w2').toFinset := by
      ext a
      simp only [List.mem_toFinset, List.mem_append]
      exact or_congr hp.mem_iff (hm a)
    rw [← List.card_toFinset, ← List.card_toFinset, hset]
  simp only [similarityOfWords]
  rw [hinter, huni]

theorem similarityOfWords_nil_right (w1 : List String) : similarityOfWords w1 [] = 0 := by
  simp only [similarityOfWords]
  have hfalse : (fun word : String => decide (word ∈ ([] : List String))) = fun _ => false :=
    funext fun w => decide_eq_false (List.not_mem_nil w)
  rw [hfalse, List.filter_false]
  simp only [List.length_nil, Nat.cast_zero, zero_div, ite_self]

theorem submitScore_empty_user (e : String) : submitScore (some "") (some e) = (0, false) := by
  simp [submitScore]

theorem submitScore_empty_expected (u : String) : submitScore (some u) (some "") = (0, false) := by
  simp [submitScore]

theorem wordless_of_members_empty {s : String} (hmem : ∀ w ∈ jsSplitSpace s, w = "") :
    ((jsSplitSpace (jsToLower s)).filter (fun w => 2 < w.length)) = [] := by
  rw [jsSplitSpace_toLower, List.filter_eq_nil_iff]
  intro a ha
  rw [List.mem_map] at ha
  obtain ⟨b, hb, rfl⟩ := ha
  rw [hmem b hb]
  decide

theorem submitScore_expected_wordless (u e : String) (hu : u ≠ "") (he : e ≠ "")
    (hw : ((jsSplitSpace (jsToLower e)).filter (fun w => 2 < w.length)) = []) :
    submitScore (some u) (some e) = (0, false) := by
  rw [submitScore_some_some u e hu he, calculateTextSimilarity_eq_similarityOfWords, hw,
    similarityOfWords_nil_right, zero_mul,
    decide_eq_false (by norm_num : ¬ ((0.6 : ℚ) < 0))]

/-- C2: the claim asserts invariance under duplication of words in either
input, in particular on the user side. Duplicating the (matched) word `foo`
in the user answer changes the score from `100` to `200`: the claim is
false. -/
theorem c2_duplication_counterexample :
    jsSplitSpace "foo foo" = ["foo", "foo"] ∧
    jsSplitSpace "foo" = ["foo"] ∧
    submitScore (some "foo") (some "foo") = (100, true) ∧
    submitScore (some "foo foo") (some "foo") = (200, true) ∧
    submitScore (some "foo foo") (some "foo") ≠ submitScore (some "foo") (some "foo") := by
  have h1 : submitScore (some "foo") (some "foo") = (100, true) := by
    rw [submitScore_some_some _ _ (by decide) (by decide),
      calculateTextSimilarity_eq_simCounts,
      show simCounts (jsToLower "foo") (jsToLower "foo") = (1, 1) from by decide]
    norm_num
  have h2 : submitScore (some "foo foo") (some "foo") = (200, true) := by
    rw [submitScore_some_some _ _ (by decide) (by decide),
      calculateTextSimilarity_eq_simCounts,
      show simCounts (jsToLower "foo foo") (jsToLower "foo") = (2, 1) from by decide]
    norm_num
  refine ⟨by decide, by decide, h1, h2, ?_⟩
  rw [h1, h2]
  intro h
  exact absurd (congrArg Prod.fst h) (by norm_num)

/-- C2 (amended): the scorer is invariant under any permutation of the words
of the user answer, and under any change of the expected answer that keeps
the same set of words — in particular any permutation or duplication of its
words. Duplication on the user side is not score-invariant (see the
counterexample). -/
theorem c2_invariance_amended (u u' e e' : String)
    (hu : (jsSplitSpace u).Perm (jsSplitSpace u'))
    (he : ∀ w, w ∈ jsSplitSpace e ↔ w ∈ jsSplitSpace e') :
    submitScore (some u) (some e) = submitScore (some u') (some e') := by
  have hue : u = "" ↔ u' = "" := by
    constructor
    · intro h
      subst h
      refine jsSplitSpace_eq_singleton_empty ?_
      have := hu
      rw [show jsSplitSpace "" = [""] from rfl] at this
      exact (this.singleton_eq).symm
    · intro h
      subst h
      refine jsSplitSpace_eq_singleton_empty ?_
      have := hu.symm
      rw [show jsSplitSpace "" = [""] from rfl] at this
      exact (this.singleton_eq).symm
  by_cases hu0 : u = ""
  · have hu0' : u' = "" := hue.1 hu0
    subst hu0
    subst hu0'
    rw [submitScore_empty_user, submitScore_empty_user]
  · have hu0' : u' ≠ "" := fun h => hu0 (hue.2 h)
    by_cases he0 : e = ""
    · subst he0
      rw [submitScore_empty_expected]
      by_cases he0' : e' = ""
      · subst he0'
        rw [submitScore_empty_expected]
      · have hw : ((jsSplitSpace (jsToLower e')).filter (fun w => 2 < w.length)) = [] := by
          refine wordless_of_members_empty fun w hw => ?_
          have : w ∈ jsSplitSpace "" := (he w).2 hw
          rw [show jsSplitSpace "" = [""] from rfl] at this
          simpa using this
        rw [submitScore_expected_wordless u' e' hu0' he0' hw]
    · by_cases he0' : e' = ""
      · subst he0'
        rw [submitScore_empty_expected]
        have hw : ((jsSplitSpace (jsToLower e)).filter (fun w => 2 < w.length)) = [] := by
          refine wordless_of_members_empty fun w hw => ?_
          have : w ∈ jsSplitSpace "" := (he w).1 hw
          rw [show jsSplitSpace "" = [""] from rfl] at this
          simpa using this
        rw [submitScore_expected_wordless u e hu0 he0 hw]
      · rw [submitScore_some_some u e hu0 he0, submitScore_some_some u' e' hu0' he0']
        have hW1 : ((jsSplitSpace (jsToLower u)).filter (fun w => 2 < w.length)).Perm
            ((jsSplitSpace (jsToLower u')).filter (fun w => 2 < w.length)) := by
          rw [jsSplitSpace_toLower, jsSplitSpace_toLower]
          exact (hu.map jsToLower).filter _
        have hW2 : ∀ w, w ∈ (jsSplitSpace (jsToLower e)).filter (fun w => 2 < w.length) ↔
            w ∈ (jsSplitSpace (jsToLower e')).filter (fun w => 2 < w.length) := by
          intro w
          rw [jsSplitSpace_toLower, jsSplitSpace_toLower]
          simp only [List.mem_filter, List.mem_map]
          constructor
          · rintro ⟨⟨a, ha, rfl⟩, hlen⟩
            exact ⟨⟨a, (he a).1 ha, rfl⟩, hlen⟩
          · rintro ⟨⟨a, ha, rfl⟩, hlen⟩
            exact ⟨⟨a, (he a).2 ha, rfl⟩, hlen⟩
        have hsim : calculateTextSimilarity (jsToLower u) (jsToLower e) =
            calculateTextSimilarity (jsToLower u') (jsToLower e') := by
          rw [calculateTextSimilarity_eq_similarityOfWords,
            calculateTextSimilarity_eq_similarityOfWords]
          exact similarityOfWords_congr _ _ _ _ hW1 hW2
        rw [hsim]

/-- Witness for C2 (amended) at concrete inputs: permuting the user words and
collapsing a duplicate in the expected answer leaves the result unchanged. -/
theorem c2_invariance_amended_witness :
    submitScore (some "abc def") (some "abc abc") = submitScore (some "def abc") (some "abc") :=
  c2_invariance_amended "abc def" "def abc" "abc abc" "abc"
    (by rw [show jsSplitSpace "abc def" = ["abc", "def"] from by decide,
          show jsSplitSpace "def abc" = ["def", "abc"] from by decide]
        exact List.Perm.swap "def" "abc" [])
    (by intro w
        rw [show jsSplitSpace "abc abc" = ["abc", "abc"] from by decide,
          show jsSplitSpace "abc" = ["abc"] from by decide]
        constructor
        · intro h
          simpa using (by simpa using h : w = "abc" ∨ w = "abc").elim id id
        · intro h
          simp [List.mem_cons]
          simpa using h)

/-- A row of the `interview_sessions` table, restricted to the fields the
interview controller reads or writes. Scores are `Option ℚ` because the
schema leaves them null until completion; times are milliseconds since the
epoch, as JavaScript `Date.getTime()` values. -/
structure Session where
  id : ℕ
  userId : ℕ
  status : String
  totalQuestions : ℕ
  answeredQuestions : ℕ
  overallScore : Option ℚ
  technicalScore : Option ℚ
  confidenceScore : Option ℚ
  communicationScore : Option ℚ
  startedAt : ℚ
  completedAt : Option ℚ
  duration : Option ℤ
deriving DecidableEq

/-- A row of `interview_questions`, restricted to what `submitAnswer` reads. -/
structure QuestionRec where
  id : ℕ
  expectedAnswer : Option String
deriving DecidableEq

/-- A row of `interview_responses` as written by `submitAnswer`. -/
structure ResponseRec where
  sessionId : ℕ
  questionId : ℕ
  userAnswer : Option String
  codeSubmission : Option String
  timeSpent : Option ℤ
  score : ℚ
  isCorrect : Bool
deriving DecidableEq

/-- A row of `ai_feedback` as written by `generateAIFeedback`. -/
structure FeedbackRec where
  sessionId : ℕ
  type : String
  feedback : String
  strengths : List String
  weaknesses : List String
  improvementTips : List String
  score : ℚ
deriving DecidableEq

/-- The persistent store the interview controller operates on. -/
structure Store where
  sessions : List Session
  questions : List QuestionRec
  responses : List ResponseRec
  feedbacks : List FeedbackRec
deriving DecidableEq

/-- The error classes the controller raises: `notFound` is the 404
`AppError` (missing session or question, or foreign owner) and
`invalidState` the 400 `AppError` (session not `in_progress`). -/
inductive ApiError where
  | notFound
  | invalidState
deriving DecidableEq

/-- The controller's session lookup: first session whose id matches and which
belongs to the calling user. -/
def findSession (st : Store) (sessionId userId : ℕ) : Option Session :=
  st.sessions.find? (fun s => decide (s.id = sessionId ∧ s.userId = userId))

/-- First session with the given id, regardless of owner. -/
def sessionById (st : Store) (sessionId : ℕ) : Option Session :=
  st.sessions.find? (fun s => decide (s.id = sessionId))

/-- Embedding of `submitAnswer` (interviewController lines 177–247) for an
authenticated user: resolve the session by id and owner (404 when missing),
reject a session not `in_progress` (400), resolve the question (404), score
the answer, append the new `interview_responses` row and increment the
session's `answeredQuestions`. The returned store is the input store whenever
an error is raised, since the code throws before any write. -/
def submitAnswer (st : Store) (userId sessionId questionId : ℕ)
    (userAnswer codeSubmission : Option String) (timeSpent : Option ℤ) :
    Except ApiError (ℚ × Bool) × Store :=
  match findSession st sessionId userId with
  | none => (Except.error ApiError.notFound, st)
  | some s =>
    if s.status ≠ "in_progress" then (Except.error ApiError.invalidState, st)
    else
      match st.questions.find? (fun q => decide (q.id = questionId)) with
      | none => (Except.error ApiError.notFound, st)
      | some q =>
        let result := submitScore userAnswer q.expectedAnswer
        let newResponse : ResponseRec :=
          { sessionId := sessionId, questionId := questionId, userAnswer := userAnswer,
            codeSubmission := codeSubmission, timeSpent := timeSpent,
            score := result.1, isCorrect := result.2 }
        (Except.ok result,
          { st with
            responses := st.responses ++ [newResponse],
            sessions := st.sessions.map (fun t =>
              if t.id = sessionId then { t with answeredQuestions := t.answeredQuestions + 1 }
              else t) })

/-- The narrative `generateAIFeedback` picks: strong tier at average 80 and
above, encouraging tier at 60 and above, improvement tier below. -/
def feedbackText (averageScore : ℚ) : String :=
  if 80 ≤ averageScore then
    "Excellent performance! You demonstrated strong technical knowledge and clear communication."
  else if 60 ≤ averageScore then
    "Good effort! There are some areas for improvement, but you\x27re on the right track."
  else
    "Keep practicing! Focus on understanding core concepts and improving your problem-solving approach."

/-- The strengths list `generateAIFeedback` picks, switching at average 70. -/
def feedbackStrengths (averageScore : ℚ) : List String :=
  if 70 ≤ averageScore then
    ["Clear communication", "Good problem-solving approach", "Technical knowledge"]
  else
    ["Willingness to learn", "Basic understanding"]

/-- The weaknesses list `generateAIFeedback` picks, switching at average 70. -/
def feedbackWeaknesses (averageScore : ℚ) : List String :=
  if averageScore < 70 then
    ["Technical depth", "Problem-solving speed", "Code optimization"]
  else
    ["Minor optimization opportunities"]

/-- The fixed four improvement tips `generateAIFeedback` always writes. -/
def improvementTipsList : List String :=
  ["Practice more coding problems", "Review system design concepts",
    "Work on communication skills", "Study company-specific technologies"]

/-- Embedding of `generateAIFeedback` (interviewController lines 412–446):
the single `ai_feedback` row inserted at completion. The session's responses
are passed by the source but unused by the heuristic. -/
def generateAIFeedback (sessionId : ℕ) (averageScore : ℚ) : FeedbackRec :=
  { sessionId := sessionId, type := "overall", feedback := feedbackText averageScore,
    strengths := feedbackStrengths averageScore,
    weaknesses := feedbackWeaknesses averageScore,
    improvementTips := improvementTipsList, score := averageScore }

/-- The aggregation step of `completeInterviewSession` (interviewController
lines 267–273): the average score over the session's responses, `0` when it
has none. -/
def sessionAverage (st : Store) (sessionId : ℕ) : ℚ :=
  let responses := st.responses.filter (fun r => decide (r.sessionId = sessionId))
  let totalScore := (responses.map (fun r => r.score)).sum
  if 0 < responses.length then totalScore / (responses.length : ℚ) else 0

/-- The session update `completeInterviewSession` writes (interviewController
lines 280–293): mark completed, set the four derived scores, the duration and
the completion time. -/
def completeUpdate (averageScore now : ℚ) (duration : ℤ) (t : Session) : Session :=
  { t with
    status := "completed"
    overallScore := some averageScore
    technicalScore := some averageScore
    confidenceScore := some (min 100 (averageScore + 10))
    communicationScore := some (min 100 (averageScore + 5))
    duration := some duration
    completedAt := some now }

/-- Embedding of `completeInterviewSession` (interviewController lines
250–303) for an authenticated user at wall-clock time `now` (milliseconds):
resolve the session by id and owner (404 when missing, no status check),
average the session's response scores, derive the duration in minutes
(`Math.round` is `round`), write the completed session and append one
feedback row. -/
def completeInterviewSession (st : Store) (userId sessionId : ℕ) (now : ℚ) :
    Except ApiError Session × Store :=
  match findSession st sessionId userId with
  | none => (Except.error ApiError.notFound, st)
  | some s =>
    let averageScore := sessionAverage st sessionId
    let duration : ℤ := round ((now - s.startedAt) / (1000 * 60))
    (Except.ok (completeUpdate averageScore now duration s),
      { st with
        sessions := st.sessions.map (fun t =>
          if t.id = sessionId then completeUpdate averageScore now duration t else t),
        feedbacks := st.feedbacks ++ [generateAIFeedback sessionId averageScore] })

theorem submitAnswer_no_session {st : Store} {uid sid qid : ℕ}
    {ua cs : Option String} {ts : Option ℤ}
    (h : findSession st sid uid = none) :
    submitAnswer st uid sid qid ua cs ts = (Except.error ApiError.notFound, st) := by
  simp only [submitAnswer]
  rw [h]

theorem submitAnswer_bad_status {st : Store} {uid sid qid : ℕ}
    {ua cs : Option String} {ts : Option ℤ} {s : Session}
    (h : findSession st sid uid = some s) (hstatus : s.status ≠ "in_progress") :
    submitAnswer st uid sid qid ua cs ts = (Except.error ApiError.invalidState, st) := by
  simp only [submitAnswer]
  rw [h]
  simp [hstatus]

theorem submitAnswer_no_question {st : Store} {uid sid qid : ℕ}
    {ua cs : Option String} {ts : Option ℤ} {s : Session}
    (h : findSession st sid uid = some s) (hstatus : s.status = "in_progress")
    (hq : st.questions.find? (fun q => decide (q.id = qid)) = none) :
    submitAnswer st uid sid qid ua cs ts = (Except.error ApiError.notFound, st) := by
  simp only [submitAnswer]
  rw [h]
  dsimp only
  rw [if_neg (by simp [hstatus]), hq]

theorem submitAnswer_ok {st : Store} {uid sid qid : ℕ}
    {ua cs : Option String} {ts : Option ℤ} {s : Session} {q : QuestionRec}
    (h : findSession st sid uid = some s) (hstatus : s.status = "in_progress")
    (hq : st.questions.find? (fun q => decide (q.id = qid)) = some q) :
    submitAnswer st uid sid qid ua cs ts =
      (Except.ok (submitScore ua q.expectedAnswer),
       { st with
         responses := st.responses ++
           [{ sessionId := sid, questionId := qid, userAnswer := ua, codeSubmission := cs,
              timeSpent := ts, score := (submitScore ua q.expectedAnswer).1,
              isCorrect := (submitScore ua q.expectedAnswer).2 }],
         sessions := st.sessions.map (fun t =>
           if t.id = sid then { t with answeredQuestions := t.answeredQuestions + 1 }
           else t) }) := by
  simp only [submitAnswer]
  rw [h]
  dsimp only
  rw [if_neg (by simp [hstatus]), hq]

theorem completeInterviewSession_found {st : Store} {uid sid : ℕ} {s : Session} (now : ℚ)
    (h : findSession st sid uid = some s) :
    completeInterviewSession st uid sid now =
      (Except.ok (completeUpdate (sessionAverage st sid) now
          (round ((now - s.startedAt) / (1000 * 60))) s),
       { st with
         sessions := st.sessions.map (fun t =>
           if t.id = sid then
             completeUpdate (sessionAverage st sid) now
               (round ((now - s.startedAt) / (1000 * 60))) t
           else t),
         feedbacks := st.feedbacks ++ [generateAIFeedback sid (sessionAverage st sid)] }) := by
  simp only [completeInterviewSession]
  rw [h]

theorem completeInterviewSession_no_session {st : Store} {uid sid : ℕ} (now : ℚ)
    (h : findSession st sid uid = none) :
    completeInterviewSession st uid sid now = (Except.error ApiError.notFound, st) := by
  simp only [completeInterviewSession]
  rw [h]

/-- Mean of a collection of scores as the specification words it: `0` for the
empty collection, the sum divided by the count otherwise. -/
def meanOf (scores : List ℚ) : ℚ :=
  if scores = [] then 0 else scores.sum / (scores.length : ℚ)

theorem average_eq_meanOf (rs : List ResponseRec) :
    (if 0 < rs.length then ((rs.map (fun r => r.score)).sum) / (rs.length : ℚ) else 0) =
      meanOf (rs.map (fun r => r.score)) := by
  simp only [meanOf]
  by_cases h : rs = []
  · subst h
    simp
  · rw [if_pos (List.length_pos.mpr h), if_neg (by simpa using h), List.length_map]

theorem sessionAverage_eq_meanOf (st : Store) (sid : ℕ) :
    sessionAverage st sid =
      meanOf ((st.responses.filter (fun r => decide (r.sessionId = sid))).map
        (fun r => r.score)) := by
  simp only [sessionAverage]
  exact average_eq_meanOf _

/-- C4: for every response collection, `complete` writes
`overallScore = mean of the per-response scores` (`0` when there are none),
`technicalScore = overallScore`, `confidenceScore = min(100, overall + 10)`
and `communicationScore = min(100, overall + 5)`. -/
theorem c4_aggregator (st : Store) (uid sid : ℕ) (now : ℚ) (s : Session)
    (h : findSession st sid uid = some s) :
    ∃ u : Session, (completeInterviewSession st uid sid now).1 = Except.ok u ∧
      u.overallScore = some (meanOf
        ((st.responses.filter (fun r => decide (r.sessionId = sid))).map (fun r => r.score))) ∧
      u.technicalScore = u.overallScore ∧
      u.confidenceScore = some (min 100 (meanOf
        ((st.responses.filter (fun r => decide (r.sessionId = sid))).map (fun r => r.score)) + 10)) ∧
      u.communicationScore = some (min 100 (meanOf
        ((st.responses.filter (fun r => decide (r.sessionId = sid))).map (fun r => r.score)) + 5)) := by
  rw [completeInterviewSession_found now h]
  refine ⟨_, rfl, ?_, ?_, ?_, ?_⟩ <;>
    simp [completeUpdate, sessionAverage_eq_meanOf]

/-- A concrete session and store with three responses scored 80, 60 and 40,
for the C4 witness. -/
def c4Session : Session :=
  { id := 1, userId := 7, status := "in_progress", totalQuestions := 3,
    answeredQuestions := 3, overallScore := none, technicalScore := none,
    confidenceScore := none, communicationScore := none, startedAt := 0,
    completedAt := none, duration := none }

def c4Store : Store :=
  { sessions := [c4Session],
    questions := [],
    responses :=
      [{ sessionId := 1, questionId := 1, userAnswer := some "a", codeSubmission := none,
         timeSpent := none, score := 80, isCorrect := true },
       { sessionId := 1, questionId := 2, userAnswer := some "b", codeSubmission := none,
         timeSpent := none, score := 60, isCorrect := false },
       { sessionId := 1, questionId := 3, userAnswer := some "c", codeSubmission := none,
         timeSpent := none, score := 40, isCorrect := false }],
    feedbacks := [] }

/-- Witness for C4: on scores `[80, 60, 40]`, `complete` writes
`overall = 60`, `technical = 60`, `confidence = 70`, `communication = 65`. -/
theorem c4_aggregator_witness :
    ∃ u : Session, (completeInterviewSession c4Store 7 1 0).1 = Except.ok u ∧
      u.overallScore = some 60 ∧ u.technicalScore = some 60 ∧
      u.confidenceScore = some 70 ∧ u.communicationScore = some 65 := by
  obtain ⟨u, h1, h2, h3, h4, h5⟩ := c4_aggregator c4Store 7 1 0 c4Session rfl
  have hscores :
      ((c4Store.responses.filter (fun r => decide (r.sessionId = 1))).map (fun r => r.score)) =
        [80, 60, 40] := rfl
  rw [hscores] at h2 h4 h5
  have hmean : meanOf [80, 60, 40] = 60 := by
    simp only [meanOf]
    rw [if_neg (by simp)]
    norm_num [List.sum_cons, List.sum_nil]
  rw [hmean] at h2 h4 h5
  refine ⟨u, h1, h2, h3.trans h2, ?_, ?_⟩
  · rw [h4]
    norm_num
  · rw [h5]
    norm_num

/-- A pristine in-progress session owned by user 7, for the C3 run. -/
def c3Session : Session :=
  { id := 1, userId := 7, status := "in_progress", totalQuestions := 1,
    answeredQuestions := 0, overallScore := none, technicalScore := none,
    confidenceScore := none, communicationScore := none, startedAt := 0,
    completedAt := none, duration := none }

def c3Store : Store :=
  { sessions := [c3Session],
    questions := [{ id := 9, expectedAnswer := some "foo" }],
    responses := [], feedbacks := [] }

/-- The C3 store after the answer `"foo foo"` is submitted for question 9. -/
def c3StoreAfter : Store :=
  { sessions := [{ c3Session with answeredQuestions := 1 }],
    questions := [{ id := 9, expectedAnswer := some "foo" }],
    responses := [{ sessionId := 1, questionId := 9, userAnswer := some "foo foo",
                    codeSubmission := none, timeSpent := none, score := 200,
                    isCorrect := true }],
    feedbacks := [] }

/-- C3: the claim says every score produced or stored lies in [0, 100]. The
scorer returns `200` for userAnswer `"foo foo"` against expectedAnswer
`"foo"`, `submitAnswer` stores that response, and `complete` then writes
`overallScore = 200 > 100`: the code violates the invariant. -/
theorem c3_score_range_bug :
    submitScore (some "foo foo") (some "foo") = (200, true) ∧
    (submitAnswer c3Store 7 1 9 (some "foo foo") none none).2 = c3StoreAfter ∧
    ((completeInterviewSession c3StoreAfter 7 1 0).1.map (fun u => u.overallScore)) =
      Except.ok (some 200) ∧
    ¬ ((200 : ℚ) ≤ 100) := by
  have hscore : submitScore (some "foo foo") (some "foo") = (200, true) := by
    rw [submitScore_some_some _ _ (by decide) (by decide),
      calculateTextSimilarity_eq_simCounts,
      show simCounts (jsToLower "foo foo") (jsToLower "foo") = (2, 1) from by decide]
    norm_num
  have hsub := @submitAnswer_ok c3Store 7 1 9 (some "foo foo") none none c3Session
    ⟨9, some "foo"⟩ rfl rfl rfl
  rw [hscore] at hsub
  refine ⟨hscore, ?_, ?_, by norm_num⟩
  · rw [hsub]
    simp [c3Store, c3Session, c3StoreAfter]
  · rw [@completeInterviewSession_found c3StoreAfter 7 1 { c3Session with answeredQuestions := 1 }
      0 rfl]
    have havg : sessionAverage c3StoreAfter 1 = 200 := by
      simp only [sessionAverage, c3StoreAfter]
      norm_num
    simp [Except.map, completeUpdate, havg]

/-- For an update that touches neither `id` nor `userId`, the controller's
session lookup commutes with the store-wide session update. -/
theorem find?_update (ss : List Session) (sid uid : ℕ) (f : Session → Session)
    (hid : ∀ t, (f t).id = t.id) (huid : ∀ t, (f t).userId = t.userId) :
    (ss.map (fun t => if t.id = sid then f t else t)).find?
        (fun s => decide (s.id = sid ∧ s.userId = uid)) =
      (ss.find? (fun s => decide (s.id = sid ∧ s.userId = uid))).map
        (fun t => if t.id = sid then f t else t) := by
  rw [List.find?_map]
  have hpred : ((fun s => decide (s.id = sid ∧ s.userId = uid)) ∘
      fun t => if t.id = sid then f t else t) =
      (fun s => decide (s.id = sid ∧ s.userId = uid)) := by
    funext t
    by_cases ht : t.id = sid
    · simp [Function.comp, ht, hid, huid]
    · simp [Function.comp, ht]
  rw [hpred]

/-- C7: `complete` needs only an existing session owned by the caller — no
status check — and completing twice without new responses recomputes the same
four scores while appending a second identical feedback row of type
`"overall"`. -/
theorem c7_recompletion (st : Store) (uid sid : ℕ) (t1 t2 : ℚ) (s : Session)
    (h : findSession st sid uid = some s) :
    ∃ u1 u2 : Session,
      (completeInterviewSession st uid sid t1).1 = Except.ok u1 ∧
      (completeInterviewSession (completeInterviewSession st uid sid t1).2 uid sid t2).1 =
        Except.ok u2 ∧
      u2.overallScore = u1.overallScore ∧
      u2.technicalScore = u1.technicalScore ∧
      u2.confidenceScore = u1.confidenceScore ∧
      u2.communicationScore = u1.communicationScore ∧
      ∃ fb : FeedbackRec,
        (completeInterviewSession (completeInterviewSession st uid sid t1).2 uid sid t2).2.feedbacks =
          st.feedbacks ++ [fb, fb] ∧ fb.type = "overall" := by
  have hps := List.find?_some h
  rw [decide_eq_true_eq] at hps
  rw [completeInterviewSession_found t1 h]
  dsimp only
  have hfind2 : findSession
      { st with
        sessions := st.sessions.map (fun t =>
          if t.id = sid then
            completeUpdate (sessionAverage st sid) t1
              (round ((t1 - s.startedAt) / (1000 * 60))) t
          else t),
        feedbacks := st.feedbacks ++ [generateAIFeedback sid (sessionAverage st sid)] }
      sid uid =
      some (completeUpdate (sessionAverage st sid) t1
        (round ((t1 - s.startedAt) / (1000 * 60))) s) := by
    show (st.sessions.map (fun t =>
        if t.id = sid then
          completeUpdate (sessionAverage st sid) t1
            (round ((t1 - s.startedAt) / (1000 * 60))) t
        else t)).find? (fun s => decide (s.id = sid ∧ s.userId = uid)) = _
    rw [find?_update st.sessions sid uid
      (completeUpdate (sessionAverage st sid) t1 (round ((t1 - s.startedAt) / (1000 * 60))))
      (fun t => rfl) (fun t => rfl),
      show st.sessions.find? (fun s => decide (s.id = sid ∧ s.userId = uid)) = some s from h]
    simp [hps.1]
  rw [completeInterviewSession_found t2 hfind2]
  dsimp only
  have havg : sessionAverage
      { st with
        sessions := st.sessions.map (fun t =>
          if t.id = sid then
            completeUpdate (sessionAverage st sid) t1
              (round ((t1 - s.startedAt) / (1000 * 60))) t
          else t),
        feedbacks := st.feedbacks ++ [generateAIFeedback sid (sessionAverage st sid)] }
      sid = sessionAverage st sid := rfl
  rw [havg]
  refine ⟨_, _, rfl, rfl, rfl, rfl, rfl, rfl,
    generateAIFeedback sid (sessionAverage st sid), ?_, rfl⟩
  dsimp only
  rw [List.append_assoc]
  rfl

/-- Witness for C7 at a concrete store: completing the C4 store twice. -/
theorem c7_recompletion_witness :
    ∃ u1 u2 : Session,
      (completeInterviewSession c4Store 7 1 0).1 = Except.ok u1 ∧
      (completeInterviewSession (completeInterviewSession c4Store 7 1 0).2 7 1 0).1 =
        Except.ok u2 ∧
      u2.overallScore = u1.overallScore ∧
      u2.technicalScore = u1.technicalScore ∧
      u2.confidenceScore = u1.confidenceScore ∧
      u2.communicationScore = u1.communicationScore ∧
      ∃ fb : FeedbackRec,
        (completeInterviewSession (completeInterviewSession c4Store 7 1 0).2 7 1 0).2.feedbacks =
          c4Store.feedbacks ++ [fb, fb] ∧ fb.type = "overall" :=
  c7_recompletion c4Store 7 1 0 0 c4Session rfl

/-- A store with one completed session owned by user 7 and an empty question
catalog, for the C6 counterexample. -/
def c6Store : Store :=
  { sessions := [{ id := 1, userId := 7, status := "completed", totalQuestions := 0,
                   answeredQuestions := 0, overallScore := none, technicalScore := none,
                   confidenceScore := none, communicationScore := none, startedAt := 0,
                   completedAt := none, duration := none }],
    questions := [], responses := [], feedbacks := [] }

/-- C6: the claim says `submitAnswer` fails with NotFound exactly when the
session or the question does not resolve. On a store whose session is owned
but completed and whose question id resolves to nothing, the code raises
InvalidState — the status check runs before the question lookup — so the
claimed NotFound biconditional is false. -/
theorem c6_error_counterexample :
    (submitAnswer c6Store 7 1 99 (some "x") none none).1 = Except.error ApiError.invalidState ∧
    c6Store.questions.find? (fun q => decide (q.id = 99)) = none ∧
    ApiError.invalidState ≠ ApiError.notFound := by
  refine ⟨rfl, rfl, by decide⟩

/-- C6 (amended): `submitAnswer` fails with NotFound exactly when the session
id does not resolve to a session of the caller, or when the session resolves,
is `in_progress`, and the question id does not resolve; it fails with
InvalidState exactly when the session resolves for the caller and its status
is not `in_progress` (regardless of the question); and whenever it fails the
store is unchanged — no response row is appended and `answeredQuestions`
keeps its prior value. -/
theorem c6_errors_amended (st : Store) (uid sid qid : ℕ) (ua cs : Option String)
    (ts : Option ℤ) :
    ((submitAnswer st uid sid qid ua cs ts).1 = Except.error ApiError.notFound ↔
      (findSession st sid uid = none ∨
        ∃ s, findSession st sid uid = some s ∧ s.status = "in_progress" ∧
          st.questions.find? (fun q => decide (q.id = qid)) = none)) ∧
    ((submitAnswer st uid sid qid ua cs ts).1 = Except.error ApiError.invalidState ↔
      ∃ s, findSession st sid uid = some s ∧ s.status ≠ "in_progress") ∧
    (∀ er : ApiError, (submitAnswer st uid sid qid ua cs ts).1 = Except.error er →
      (submitAnswer st uid sid qid ua cs ts).2 = st) := by
  cases hfs : findSession st sid uid with
  | none =>
    rw [submitAnswer_no_session hfs]
    refine ⟨iff_of_true rfl (Or.inl rfl), ?_, fun er h => rfl⟩
    refine iff_of_false (by simp) ?_
    rintro ⟨s, hs, hstat⟩
    exact Option.noConfusion hs
  | some s =>
    by_cases hstat : s.status = "in_progress"
    · cases hq : st.questions.find? (fun q => decide (q.id = qid)) with
      | none =>
        rw [submitAnswer_no_question hfs hstat hq]
        refine ⟨iff_of_true rfl (Or.inr ⟨s, rfl, hstat, rfl⟩), ?_, fun er h => rfl⟩
        refine iff_of_false (by simp) ?_
        rintro ⟨s', hs', hstat'⟩
        injection hs' with hss
        subst hss
        exact hstat' hstat
      | some q =>
        rw [submitAnswer_ok hfs hstat hq]
        refine ⟨?_, ?_, fun er h => absurd h (by simp)⟩
        · refine iff_of_false (by simp) ?_
          rintro (h | ⟨s', hs', hstat', hq'⟩)
          · exact Option.noConfusion h
          · exact Option.noConfusion hq'
        · refine iff_of_false (by simp) ?_
          rintro ⟨s', hs', hstat'⟩
          injection hs' with hss
          subst hss
          exact hstat' hstat
    · rw [submitAnswer_bad_status hfs hstat]
      refine ⟨?_, iff_of_true rfl ⟨s, rfl, hstat⟩, fun er h => rfl⟩
      refine iff_of_false (by simp) ?_
      rintro (h | ⟨s', hs', hstat', hq'⟩)
      · exact Option.noConfusion h
      · injection hs' with hss
        subst hss
        exact hstat hstat'

/-- Witness for C6 (amended): on the concrete counterexample store the failed
call leaves the store unchanged. -/
theorem c6_errors_amended_witness :
    (submitAnswer c6Store 7 1 99 (some "x") none none).2 = c6Store :=
  (c6_errors_amended c6Store 7 1 99 (some "x") none none).2.2 ApiError.invalidState rfl

/-- C5: the claim says the whole band `[60, 80)` carries the strengths list
of the strong tier and the weaknesses list `{"Minor optimization
opportunities"}`. The code switches both lists at 70, not at the band
boundaries, so at `overallScore = 60` (inside `[60, 80)`) the written
feedback carries the other lists: the claim is false. -/
theorem c5_feedback_counterexample :
    ((60 : ℚ) ≤ 60 ∧ (60 : ℚ) < 80) ∧
    (generateAIFeedback 1 60).strengths = ["Willingness to learn", "Basic understanding"] ∧
    (generateAIFeedback 1 60).strengths ≠
      ["Clear communication", "Good problem-solving approach", "Technical knowledge"] ∧
    (generateAIFeedback 1 60).weaknesses =
      ["Technical depth", "Problem-solving speed", "Code optimization"] ∧
    (generateAIFeedback 1 60).weaknesses ≠ ["Minor optimization opportunities"] := by
  have hstr : (generateAIFeedback 1 60).strengths =
      ["Willingness to learn", "Basic understanding"] := by
    show feedbackStrengths 60 = _
    simp only [feedbackStrengths]
    rw [if_neg (by norm_num)]
  have hweak : (generateAIFeedback 1 60).weaknesses =
      ["Technical depth", "Problem-solving speed", "Code optimization"] := by
    show feedbackWeaknesses 60 = _
    simp only [feedbackWeaknesses]
    rw [if_pos (by norm_num)]
  refine ⟨by norm_num, hstr, ?_, hweak, ?_⟩
  · rw [hstr]
    decide
  · rw [hweak]
    decide

/-- C5 (amended): the narrative is strong-tier at 80 and above,
encouraging-tier on `[60, 80)` and improvement-tier below 60, exactly as
claimed; but the strengths and weaknesses lists switch at 70: on `[70, 80)`
the feedback carries the claimed lists, while on `[60, 70)` it carries
`{"Willingness to learn", "Basic understanding"}` and `{"Technical depth",
"Problem-solving speed", "Code optimization"}`. Every record has type
`"overall"` and the fixed four improvement tips. -/
theorem c5_feedback_amended (sessionId : ℕ) (s : ℚ) :
    (60 ≤ s → s < 80 →
      (generateAIFeedback sessionId s).feedback =
        "Good effort! There are some areas for improvement, but you\x27re on the right track.") ∧
    (80 ≤ s →
      (generateAIFeedback sessionId s).feedback =
        "Excellent performance! You demonstrated strong technical knowledge and clear communication.") ∧
    (s < 60 →
      (generateAIFeedback sessionId s).feedback =
        "Keep practicing! Focus on understanding core concepts and improving your problem-solving approach.") ∧
    (70 ≤ s →
      (generateAIFeedback sessionId s).strengths =
        ["Clear communication", "Good problem-solving approach", "Technical knowledge"] ∧
      (generateAIFeedback sessionId s).weaknesses = ["Minor optimization opportunities"]) ∧
    (s < 70 →
      (generateAIFeedback sessionId s).strengths = ["Willingness to learn", "Basic understanding"] ∧
      (generateAIFeedback sessionId s).weaknesses =
        ["Technical depth", "Problem-solving speed", "Code optimization"]) ∧
    (generateAIFeedback sessionId s).type = "overall" ∧
    (generateAIFeedback sessionId s).improvementTips = improvementTipsList := by
  refine ⟨?_, ?_, ?_, ?_, ?_, rfl, rfl⟩
  · intro h1 h2
    show feedbackText s = _
    simp only [feedbackText]
    rw [if_neg (by linarith), if_pos h1]
  · intro h
    show feedbackText s = _
    simp only [feedbackText]
    rw [if_pos h]
  · intro h
    show feedbackText s = _
    simp only [feedbackText]
    rw [if_neg (by linarith), if_neg (by linarith)]
  · intro h
    constructor
    · show feedbackStrengths s = _
      simp only [feedbackStrengths]
      rw [if_pos h]
    · show feedbackWeaknesses s = _
      simp only [feedbackWeaknesses]
      rw [if_neg (by linarith)]
  · intro h
    constructor
    · show feedbackStrengths s = _
      simp only [feedbackStrengths]
      rw [if_neg (by linarith)]
    · show feedbackWeaknesses s = _
      simp only [feedbackWeaknesses]
      rw [if_pos h]

/-- Witness for C5 (amended) at `overallScore = 75`: encouraging-tier
narrative with the strong strengths list. -/
theorem c5_feedback_amended_witness :
    (generateAIFeedback 1 75).feedback =
      "Good effort! There are some areas for improvement, but you\x27re on the right track." ∧
    (generateAIFeedback 1 75).strengths =
      ["Clear communication", "Good problem-solving approach", "Technical knowledge"] := by
  obtain ⟨h1, _, _, h4, _, _, _⟩ := c5_feedback_amended 1 75
  exact ⟨h1 (by norm_num) (by norm_num), (h4 (by norm_num)).1⟩

/-- One point of `getPerformanceAnalytics`'s daily series: a calendar date
and that date's mean overall score. The code builds one such point per
distinct date and sorts them ascending by date. -/
structure PerfPoint where
  date : String
  overallScore : ℚ
deriving DecidableEq

/-- Embedding of the improvement-rate computation of `getPerformanceAnalytics`
(analyticsController lines 203–206): over the ascending-by-date daily series,
`(last.overall - first.overall) / first.overall * 100` when at least two
points (distinct dates) exist, `0` otherwise. The source divides without any
guard; when the first point's overall score is `0` the JavaScript division
yields a non-finite number (`Infinity`, or `NaN` when the numerator is also
`0`), which has no rational value and is modelled as `none`. -/
def improvementRate (performanceData : List PerfPoint) : Option ℚ :=
  if 2 ≤ performanceData.length then
    match performanceData.head?, performanceData.getLast? with
    | some first, some last =>
      if first.overallScore = 0 then none
      else some ((last.overallScore - first.overallScore) / first.overallScore * 100)
    | _, _ => none
  else some 0

/-- The value the route reports (analyticsController line 227):
`Math.round(improvementRate * 100) / 100`, i.e. the rate rounded to two
decimals; JavaScript `Math.round` rounds half toward positive infinity,
which is Mathlib's `round`. -/
def reportedImprovementRate (performanceData : List PerfPoint) : Option ℚ :=
  (improvementRate performanceData).map (fun x => ((round (x * 100) : ℤ) : ℚ) / 100)

/-- C8: the claim says the improvement-rate division is guarded against a
zero first-point overall score. It is not: with two distinct dates whose
first daily mean is `0`, the code divides by zero and the reported rate is
not a (finite) number, while on a non-degenerate series the claimed rounded
formula does hold, and a single-date series yields `0`. -/
theorem c8_improvement_rate_bug :
    reportedImprovementRate
      [{ date := "2026-01-01", overallScore := 0 },
       { date := "2026-01-02", overallScore := 50 }] = none ∧
    reportedImprovementRate
      [{ date := "2026-01-01", overallScore := 40 },
       { date := "2026-01-02", overallScore := 50 }] = some 25 ∧
    reportedImprovementRate [{ date := "2026-01-01", overallScore := 40 }] = some 0 := by
  refine ⟨?_, ?_, ?_⟩
  · simp [reportedImprovementRate, improvementRate]
  · have hval : ((50 : ℚ) - 40) / 40 * 100 = 25 := by norm_num
    simp only [reportedImprovementRate, improvementRate]
    rw [if_pos (by simp), show ([{ date := "2026-01-01", overallScore := 40 },
      { date := "2026-01-02", overallScore := 50 }] : List PerfPoint).head? =
        some { date := "2026-01-01", overallScore := 40 } from rfl,
      show ([{ date := "2026-01-01", overallScore := 40 },
      { date := "2026-01-02", overallScore := 50 }] : List PerfPoint).getLast? =
        some { date := "2026-01-02", overallScore := 50 } from rfl]
    dsimp only
    rw [if_neg (by norm_num), Option.map_some']
    rw [show ((50 : ℚ) - 40) / 40 * 100 * 100 = ((2500 : ℤ) : ℚ) by norm_num, round_intCast]
    norm_num
  · simp only [reportedImprovementRate, improvementRate]
    rw [if_neg (by simp), Option.map_some']
    norm_num

/-- A row of the `user_progress` table, restricted to the fields
`updateUserGoals` touches. -/
structure ProgressRec where
  userId : ℕ
  weeklyGoal : ℤ
  monthlyGoal : ℤ
  streak : ℕ
deriving DecidableEq

/-- JavaScript `value || undefined` on an optional number: `0` and absence
are falsy, so both become `undefined`. -/
def jsOrUndefined (v : Option ℤ) : Option ℤ :=
  match v with
  | some n => if n = 0 then none else some n
  | none => none

/-- Embedding of the update branch of `updateUserGoals` (analyticsController
lines 111–118) for a user whose progress row exists: the drizzle `set` leaves
a column unchanged when its value is `undefined`, so each goal is written
only when the request carries a truthy — non-zero — value
(`weeklyGoal || undefined`, `monthlyGoal || undefined`). -/
def updateUserGoals (p : ProgressRec) (weeklyGoal monthlyGoal : Option ℤ) : ProgressRec :=
  { p with
    weeklyGoal := (jsOrUndefined weeklyGoal).getD p.weeklyGoal,
    monthlyGoal := (jsOrUndefined monthlyGoal).getD p.monthlyGoal }

/-- C9: for an existing progress row, a goal value of `0` behaves exactly
like an absent field — the goal keeps its prior value, so no goal can be set
to `0` through this operation. -/
theorem c9_zero_goal_ignored (p : ProgressRec) (w m : Option ℤ) :
    (updateUserGoals p (some 0) m).weeklyGoal = p.weeklyGoal ∧
    (updateUserGoals p w (some 0)).monthlyGoal = p.monthlyGoal ∧
    (updateUserGoals p (some 0) m).weeklyGoal = (updateUserGoals p none m).weeklyGoal ∧
    (updateUserGoals p w (some 0)).monthlyGoal = (updateUserGoals p w none).monthlyGoal := by
  refine ⟨?_, ?_, ?_, ?_⟩ <;> simp [updateUserGoals, jsOrUndefined]

/-- A row of the response/session join `getSkillAnalysis` loads: the owning
session's `type` as skill label, plus the response's correctness, score and
time. -/
structure SkillRow where
  questionType : Option String
  isCorrect : Bool
  score : ℚ
  timeSpent : Option ℤ

/-- One accumulator bucket of `getSkillAnalysis`'s reduce (analyticsController
lines 259–276). -/
structure SkillData where
  totalQuestions : ℕ
  correctAnswers : ℕ
  totalScore : ℚ
  totalTime : ℤ

/-- `response.questionType || 'general'`: an absent or empty label falls back
to `"general"`. -/
def skillKey (r : SkillRow) : String :=
  match r.questionType with
  | some t => if t = "" then "general" else t
  | none => "general"

/-- The per-row accumulation of the reduce: bump `totalQuestions`, count a
correct answer, add the score and the time (`response.timeSpent || 0`). -/
def bumpSkill (d : SkillData) (r : SkillRow) : SkillData :=
  { totalQuestions := d.totalQuestions + 1,
    correctAnswers := d.correctAnswers + (if r.isCorrect then 1 else 0),
    totalScore := d.totalScore + r.score,
    totalTime := d.totalTime + (match r.timeSpent with | some t => t | none => 0) }

/-- The zeroed bucket the reduce creates when a skill label is first seen. -/
def emptySkill : SkillData :=
  { totalQuestions := 0, correctAnswers := 0, totalScore := 0, totalTime := 0 }

/-- One step of the reduce over a JavaScript object used as a map: an unseen
key is appended (insertion order), an existing key's bucket is bumped in
place. Every new bucket is immediately bumped by the row that created it. -/
def addSkillRow (acc : List (String × SkillData)) (r : SkillRow) : List (String × SkillData) :=
  if acc.any (fun p => p.1 = skillKey r) then
    acc.map (fun p => if p.1 = skillKey r then (p.1, bumpSkill p.2 r) else p)
  else acc ++ [(skillKey r, bumpSkill emptySkill r)]

/-- The `skillPerformance` accumulator of `getSkillAnalysis`. -/
def skillPerformance (responses : List SkillRow) : List (String × SkillData) :=
  responses.foldl addSkillRow []

/-- `getStrengthLevel` (analyticsController lines 316–321). -/
def getStrengthLevel (accuracy : ℚ) : String :=
  if 0.8 ≤ accuracy then "Strong"
  else if 0.6 ≤ accuracy then "Good"
  else if 0.4 ≤ accuracy then "Fair"
  else "Needs Improvement"

/-- One entry of the reported skill analysis (analyticsController lines
279–286): the three divisions by `totalQuestions`, rounded. -/
structure SkillMetric where
  skill : String
  accuracy : ℤ
  averageScore : ℤ
  averageTime : ℤ
  totalQuestions : ℕ
  strengthLevel : String

def skillAnalysis (responses : List SkillRow) : List SkillMetric :=
  (skillPerformance responses).map (fun p =>
    { skill := p.1,
      accuracy := round ((p.2.correctAnswers : ℚ) / (p.2.totalQuestions : ℚ) * 100),
      averageScore := round (p.2.totalScore / (p.2.totalQuestions : ℚ)),
      averageTime := round ((p.2.totalTime : ℚ) / (p.2.totalQuestions : ℚ)),
      totalQuestions := p.2.totalQuestions,
      strengthLevel := getStrengthLevel ((p.2.correctAnswers : ℚ) / (p.2.totalQuestions : ℚ)) })

theorem mem_addSkillRow {acc : List (String × SkillData)} {r : SkillRow}
    {q : String × SkillData} (hq : q ∈ addSkillRow acc r) :
    q ∈ acc ∨ (∃ p ∈ acc, q = (p.1, bumpSkill p.2 r)) ∨ q = (skillKey r, bumpSkill emptySkill r) := by
  simp only [addSkillRow] at hq
  by_cases hmem : acc.any (fun p => p.1 = skillKey r)
  · rw [if_pos hmem, List.mem_map] at hq
    obtain ⟨p, hp, hpq⟩ := hq
    by_cases hk : p.1 = skillKey r
    · rw [if_pos hk] at hpq
      exact Or.inr (Or.inl ⟨p, hp, hpq.symm⟩)
    · rw [if_neg hk] at hpq
      exact Or.inl (hpq ▸ hp)
  · rw [if_neg hmem, List.mem_append] at hq
    rcases hq with hq | hq
    · exact Or.inl hq
    · exact Or.inr (Or.inr (List.mem_singleton.mp hq))

theorem skillPerformance_invariant (responses : List SkillRow) :
    ∀ acc : List (String × SkillData),
      (∀ p ∈ acc, 1 ≤ p.2.totalQuestions) →
      ∀ p ∈ responses.foldl addSkillRow acc, 1 ≤ p.2.totalQuestions := by
  induction responses with
  | nil =>
    intro acc hacc p hp
    rw [List.foldl_nil] at hp
    exact hacc p hp
  | cons r rs ih =>
    intro acc hacc p hp
    rw [List.foldl_cons] at hp
    refine ih (addSkillRow acc r) ?_ p hp
    intro q hq
    rcases mem_addSkillRow hq with hq | ⟨p', _, rfl⟩ | rfl
    · exact hacc q hq
    · simp [bumpSkill]
    · simp [bumpSkill]

/-- C10: every bucket of `getSkillAnalysis`'s accumulator exists only because
at least one response fell into it, so its `totalQuestions` is at least one
and the divisor of the `accuracy`, `averageScore` and `averageTime`
computations is never zero. -/
theorem c10_skill_buckets_nonempty (responses : List SkillRow) :
    ∀ p ∈ skillPerformance responses, 1 ≤ p.2.totalQuestions ∧
      ((p.2.totalQuestions : ℚ) ≠ 0) := by
  intro p hp
  have h1 : 1 ≤ p.2.totalQuestions :=
    skillPerformance_invariant responses [] (by simp) p hp
  refine ⟨h1, ?_⟩
  exact_mod_cast Nat.pos_iff_ne_zero.mp h1

/-- A concrete row for the C10 witness. -/
def c10Row : SkillRow :=
  { questionType := some "technical", isCorrect := true, score := 80, timeSpent := some 30 }

/-- Witness for C10 on a one-row response set. -/
theorem c10_skill_buckets_nonempty_witness :
    1 ≤ (skillKey c10Row, bumpSkill emptySkill c10Row).2.totalQuestions ∧
      (((skillKey c10Row, bumpSkill emptySkill c10Row).2.totalQuestions : ℚ) ≠ 0) :=
  c10_skill_buckets_nonempty [c10Row] (skillKey c10Row, bumpSkill emptySkill c10Row)
    (by rw [show skillPerformance [c10Row] =
          [(skillKey c10Row, bumpSkill emptySkill c10Row)] from rfl]
        exact List.mem_singleton.mpr rfl)

end MockPro
